import Mathlib

/-!
Verification of `fastapi_sse_tools/fastapi_sse.py`.

The Python module under verification is a pure documentation-generation
utility: it formats SSE (Server-Sent Events) wire text from a small event
record, builds OpenAPI schema fragments for SSE endpoints, and assembles a
full response-documentation object with a synthesized example transcript.

This file gives a shallow embedding of the module:
  * `SSEEvent` / `SSEEvent.format` embed the `SSEEvent` dataclass and its
    `format` method (Python truthiness tests are made explicit);
  * `sse_schema_for` embeds the schema-descriptor builder;
  * `generate_sse_response_schema` embeds the response assembler; Python
    dictionaries are embedded as association lists (`alookup` / `ainsert`
    reproduce `dict` lookup and insert-or-overwrite), Python `KeyError`
    propagation is embedded by an `Option` result, and fallible example
    construction (constructors / factories that may raise) is embedded by
    `Option`-valued constructor fields on `Model`;
  * `_get_default_value_for_field` becomes `getDefaultValueForField` over an
    explicit enumeration `FieldAnn` of the annotation shapes the Python code
    distinguishes;
  * `create_sse_event_examples` and `create_example_factory` embed the two
    remaining entry points.
-/

/-- Embeds the Python `SSEEvent` dataclass: `data` required, the other four
fields optional with default `None`. -/
structure SSEEvent where
  data : String
  event : Option String := none
  id : Option String := none
  retry : Option Int := none
  comment : Option String := none
deriving DecidableEq, Repr, Inhabited

/-- Lines contributed by the `comment` field: Python `if self.comment:` is a
truthiness test, so `None` and the empty string both yield nothing. -/
def commentLines : Option String → List String
  | some c => if c.isEmpty then [] else [": " ++ c]
  | none => []

/-- Lines contributed by the `id` field: Python `if self.id is not None:`
keeps the line for every non-`None` value, the empty string included. -/
def idLines : Option String → List String
  | some i => ["id: " ++ i]
  | none => []

/-- Lines contributed by the `event` field, a truthiness test like
`commentLines`. -/
def eventLines : Option String → List String
  | some v => if v.isEmpty then [] else ["event: " ++ v]
  | none => []

/-- Lines contributed by the `retry` field: Python `if self.retry is not
None:` keeps the line for every non-`None` value, `0` included. -/
def retryLines : Option Int → List String
  | some n => ["retry: " ++ toString n]
  | none => []

/-- Embeds the line list built by `SSEEvent.format`: conditional appends for
comment, id, event and retry, then the mandatory data line, then the empty
string appended to terminate the event. -/
def SSEEvent.lines (e : SSEEvent) : List String :=
  commentLines e.comment ++ idLines e.id ++ eventLines e.event
    ++ retryLines e.retry ++ ["data: " ++ e.data, ""]

/-- Embeds `SSEEvent.format`: the line list joined with newlines. -/
def SSEEvent.format (e : SSEEvent) : String :=
  String.intercalate "\n" e.lines

/-- Recognizes the data line of a formatted event: a line whose text starts
with the literal prefix `data: `. -/
def startsWithData (l : String) : Bool :=
  "data: ".toList.isPrefixOf l.toList

/-- Recognizes an id line: a line starting with the literal prefix `id: `. -/
def startsWithId (l : String) : Bool :=
  "id: ".toList.isPrefixOf l.toList

/-- Recognizes a comment line: in the SSE wire grammar produced by `format`,
exactly the comment line starts with a colon. -/
def startsWithColon (l : String) : Bool :=
  l.toList.headD 'x' == ':'

/-- Recognizes an event line: a line starting with the literal prefix
`event: `. -/
def startsWithEvent (l : String) : Bool :=
  "event: ".toList.isPrefixOf l.toList

-- Basic facts about the four conditional line groups.

theorem commentLines_cases (o : Option String) :
    commentLines o = [] ∨ ∃ c, o = some c ∧ commentLines o = [": " ++ c] := by
  match o with
  | none => exact Or.inl rfl
  | some c =>
    by_cases h : c.isEmpty
    · exact Or.inl (by simp [commentLines, h])
    · exact Or.inr ⟨c, rfl, by simp [commentLines, h]⟩

theorem idLines_cases (o : Option String) :
    idLines o = [] ∨ ∃ i, o = some i ∧ idLines o = ["id: " ++ i] := by
  match o with
  | none => exact Or.inl rfl
  | some i => exact Or.inr ⟨i, rfl, rfl⟩

theorem eventLines_cases (o : Option String) :
    eventLines o = [] ∨ ∃ v, o = some v ∧ eventLines o = ["event: " ++ v] := by
  match o with
  | none => exact Or.inl rfl
  | some v =>
    by_cases h : v.isEmpty
    · exact Or.inl (by simp [eventLines, h])
    · exact Or.inr ⟨v, rfl, by simp [eventLines, h]⟩

theorem retryLines_cases (o : Option Int) :
    retryLines o = [] ∨ ∃ n, o = some n ∧ retryLines o = ["retry: " ++ toString n] := by
  match o with
  | none => exact Or.inl rfl
  | some n => exact Or.inr ⟨n, rfl, rfl⟩

theorem toList_append (s t : String) : (s ++ t).toList = s.toList ++ t.toList := by
  simp [String.toList, String.data_append]

theorem countP_startsWithData_commentLines (o : Option String) :
    (commentLines o).countP startsWithData = 0 := by
  match o with
  | none => rfl
  | some c =>
    by_cases h : c.isEmpty
    · simp [commentLines, h]
    · simp only [commentLines, h, if_neg]
      simp [List.countP_cons, startsWithData, toList_append, List.isPrefixOf]

theorem countP_startsWithData_idLines (o : Option String) :
    (idLines o).countP startsWithData = 0 := by
  match o with
  | none => rfl
  | some i =>
    simp [idLines, List.countP_cons, startsWithData, toList_append, List.isPrefixOf]

theorem countP_startsWithData_eventLines (o : Option String) :
    (eventLines o).countP startsWithData = 0 := by
  match o with
  | none => rfl
  | some v =>
    by_cases h : v.isEmpty
    · simp [eventLines, h]
    · simp only [eventLines, h, if_neg]
      simp [List.countP_cons, startsWithData, toList_append, List.isPrefixOf]

theorem countP_startsWithData_retryLines (o : Option Int) :
    (retryLines o).countP startsWithData = 0 := by
  match o with
  | none => rfl
  | some n =>
    simp [retryLines, List.countP_cons, startsWithData, toList_append, List.isPrefixOf]

theorem startsWithData_dataLine (d : String) :
    startsWithData ("data: " ++ d) = true := by
  simp only [startsWithData, toList_append]
  exact List.isPrefixOf_iff_prefix.mpr (List.prefix_append _ _)

/-- Claim C1: for every SSEEvent record, `format` produces lines in the
fixed order comment, id, event, retry, data — each optional line appearing
only when its field is present, the data line always appearing exactly once
with the record's data verbatim as its suffix — followed by exactly one
trailing blank line terminating the event. -/
theorem c1_format_line_order (e : SSEEvent) :
    (∃ cl il el rl : List String,
      e.lines = cl ++ il ++ el ++ rl ++ ["data: " ++ e.data, ""] ∧
      (cl = [] ∨ ∃ c, e.comment = some c ∧ cl = [": " ++ c]) ∧
      (il = [] ∨ ∃ i, e.id = some i ∧ il = ["id: " ++ i]) ∧
      (el = [] ∨ ∃ v, e.event = some v ∧ el = ["event: " ++ v]) ∧
      (rl = [] ∨ ∃ n, e.retry = some n ∧ rl = ["retry: " ++ toString n]) ∧
      (e.comment = none → cl = []) ∧ (e.id = none → il = []) ∧
      (e.event = none → el = []) ∧ (e.retry = none → rl = [])) ∧
    e.lines.countP startsWithData = 1 ∧
    ("data: " ++ e.data) ≠ "" := by
  refine ⟨⟨commentLines e.comment, idLines e.id, eventLines e.event, retryLines e.retry,
      rfl, ?_, ?_, ?_, ?_, ?_, ?_, ?_, ?_⟩, ?_, ?_⟩
  · exact (commentLines_cases e.comment).imp id (fun ⟨c, h1, h2⟩ => ⟨c, h1, h2⟩)
  · exact (idLines_cases e.id).imp id (fun ⟨i, h1, h2⟩ => ⟨i, h1, h2⟩)
  · exact (eventLines_cases e.event).imp id (fun ⟨v, h1, h2⟩ => ⟨v, h1, h2⟩)
  · exact (retryLines_cases e.retry).imp id (fun ⟨n, h1, h2⟩ => ⟨n, h1, h2⟩)
  · intro h; simp [h, commentLines]
  · intro h; simp [h, idLines]
  · intro h; simp [h, eventLines]
  · intro h; simp [h, retryLines]
  · simp only [SSEEvent.lines, List.countP_append,
      countP_startsWithData_commentLines, countP_startsWithData_idLines,
      countP_startsWithData_eventLines, countP_startsWithData_retryLines]
    simp [List.countP_cons, startsWithData_dataLine, startsWithData]
  · intro h
    have : ("data: " ++ e.data).length = 0 := by rw [h]; rfl
    rw [String.length_append] at this
    have h6 : "data: ".length = 6 := rfl
    omega

/-- Sanity witness for C1 at a concrete record with every field set. -/
theorem c1_format_line_order_witness :
    (∃ cl il el rl : List String,
      (SSEEvent.mk "payload" (some "tick") (some "7") (some 250) (some "note")).lines
        = cl ++ il ++ el ++ rl ++ ["data: " ++ "payload", ""] ∧
      (cl = [] ∨ ∃ c, (some "note" : Option String) = some c ∧ cl = [": " ++ c]) ∧
      (il = [] ∨ ∃ i, (some "7" : Option String) = some i ∧ il = ["id: " ++ i]) ∧
      (el = [] ∨ ∃ v, (some "tick" : Option String) = some v ∧ el = ["event: " ++ v]) ∧
      (rl = [] ∨ ∃ n, (some 250 : Option Int) = some n ∧ rl = ["retry: " ++ toString n]) ∧
      ((some "note" : Option String) = none → cl = []) ∧
      ((some "7" : Option String) = none → il = []) ∧
      ((some "tick" : Option String) = none → el = []) ∧
      ((some 250 : Option Int) = none → rl = [])) ∧
    (SSEEvent.mk "payload" (some "tick") (some "7") (some 250) (some "note")).lines.countP
      startsWithData = 1 ∧
    ("data: " ++ "payload") ≠ "" :=
  c1_format_line_order (SSEEvent.mk "payload" (some "tick") (some "7") (some 250) (some "note"))

-- Classification of every line produced by `format`.

theorem mem_lines_shape (e : SSEEvent) (l : String) (hl : l ∈ e.lines) :
    (∃ c, e.comment = some c ∧ c ≠ "" ∧ l = ": " ++ c) ∨
    (∃ i, e.id = some i ∧ l = "id: " ++ i) ∨
    (∃ v, e.event = some v ∧ v ≠ "" ∧ l = "event: " ++ v) ∨
    (∃ n, e.retry = some n ∧ l = "retry: " ++ toString n) ∨
    l = "data: " ++ e.data ∨ l = "" := by
  simp only [SSEEvent.lines, List.mem_append] at hl
  rcases hl with ((((hc | hi) | hv) | hr) | hd)
  · left
    match h : e.comment with
    | none => rw [h] at hc; simp [commentLines] at hc
    | some c =>
      rw [h] at hc
      by_cases hce : c.isEmpty
      · simp [commentLines, hce] at hc
      · simp [commentLines, hce] at hc
        exact ⟨c, rfl, by simpa [String.isEmpty_iff] using hce, hc⟩
  · right; left
    match h : e.id with
    | none => rw [h] at hi; simp [idLines] at hi
    | some i =>
      rw [h] at hi; simp [idLines] at hi
      exact ⟨i, rfl, hi⟩
  · right; right; left
    match h : e.event with
    | none => rw [h] at hv; simp [eventLines] at hv
    | some v =>
      rw [h] at hv
      by_cases hve : v.isEmpty
      · simp [eventLines, hve] at hv
      · simp [eventLines, hve] at hv
        exact ⟨v, rfl, by simpa [String.isEmpty_iff] using hve, hv⟩
  · right; right; right; left
    match h : e.retry with
    | none => rw [h] at hr; simp [retryLines] at hr
    | some n =>
      rw [h] at hr; simp [retryLines] at hr
      exact ⟨n, rfl, hr⟩
  · right; right; right; right
    simpa using hd

theorem startsWithColon_append (s t : String) (c : Char) (cs : List Char)
    (h : s.toList = c :: cs) : startsWithColon (s ++ t) = (c == ':') := by
  simp only [String.toList] at h
  simp [startsWithColon, String.toList, String.data_append, h]

theorem not_isPrefixOf_head (a c : Char) (ps l : List Char) (h : (a == c) = false) :
    (a :: ps).isPrefixOf (c :: l) = false := by
  simp [List.isPrefixOf, h]

theorem startsWithEvent_append (s t : String) (c : Char) (cs : List Char)
    (h : s.toList = c :: cs) (hne : (('e' : Char) == c) = false) :
    startsWithEvent (s ++ t) = false := by
  have h' : (s ++ t).toList = c :: (cs ++ t.toList) := by rw [toList_append, h]; rfl
  rw [startsWithEvent, h']
  have he : "event: ".toList = 'e' :: "vent: ".toList := rfl
  rw [he]
  exact not_isPrefixOf_head _ _ _ _ hne

/-- Claim C10: `format` treats presence differently per field: a comment or
event equal to the empty string is dropped (truthiness test), whereas an id
equal to the empty string still yields the line `id: ` and a retry equal to
`0` still yields the line `retry: 0` (only `None` counts as absent there). -/
theorem c10_presence_semantics :
    (∀ e : SSEEvent, e.comment = some "" → e.lines.countP startsWithColon = 0) ∧
    (∀ e : SSEEvent, e.event = some "" → e.lines.countP startsWithEvent = 0) ∧
    (∀ e : SSEEvent, e.id = some "" → "id: " ∈ e.lines) ∧
    (∀ e : SSEEvent, e.retry = some 0 → "retry: 0" ∈ e.lines) := by
  refine ⟨?_, ?_, ?_, ?_⟩
  · intro e h
    rw [List.countP_eq_zero]
    intro l hl
    rcases mem_lines_shape e l hl with ⟨c, hc, hne, hleq⟩ | ⟨i, _, hleq⟩ |
        ⟨v, _, _, hleq⟩ | ⟨n, _, hleq⟩ | hleq | hleq
    · rw [h] at hc; exact absurd (Option.some.inj hc).symm hne
    · subst hleq
      simp [startsWithColon_append "id: " i 'i' "d: ".toList rfl]
    · subst hleq
      simp [startsWithColon_append "event: " v 'e' "vent: ".toList rfl]
    · subst hleq
      simp [startsWithColon_append "retry: " (toString n) 'r' "etry: ".toList rfl]
    · subst hleq
      simp [startsWithColon_append "data: " e.data 'd' "ata: ".toList rfl]
    · subst hleq; decide
  · intro e h
    rw [List.countP_eq_zero]
    intro l hl
    rcases mem_lines_shape e l hl with ⟨c, _, _, hleq⟩ | ⟨i, _, hleq⟩ |
        ⟨v, hv, hne, _⟩ | ⟨n, _, hleq⟩ | hleq | hleq
    · subst hleq
      simp [startsWithEvent_append ": " c ':' " ".toList rfl (by decide)]
    · subst hleq
      simp [startsWithEvent_append "id: " i 'i' "d: ".toList rfl (by decide)]
    · rw [h] at hv; exact absurd (Option.some.inj hv).symm hne
    · subst hleq
      simp [startsWithEvent_append "retry: " (toString n) 'r' "etry: ".toList rfl (by decide)]
    · subst hleq
      simp [startsWithEvent_append "data: " e.data 'd' "ata: ".toList rfl (by decide)]
    · subst hleq; decide
  · intro e h
    have hid : idLines e.id = ["id: "] := by rw [h]; decide
    simp [SSEEvent.lines, hid]
  · intro e h
    have hrt : retryLines e.retry = ["retry: 0"] := by rw [h]; decide
    simp [SSEEvent.lines, hrt]

/-- Sanity witness for C10 at a concrete record carrying an empty comment,
an empty event, an empty id and a zero retry at once. -/
theorem c10_presence_semantics_witness :
    (SSEEvent.mk "d" (some "") (some "") (some 0) (some "")).lines.countP startsWithColon = 0 ∧
    (SSEEvent.mk "d" (some "") (some "") (some 0) (some "")).lines.countP startsWithEvent = 0 ∧
    "id: " ∈ (SSEEvent.mk "d" (some "") (some "") (some 0) (some "")).lines ∧
    "retry: 0" ∈ (SSEEvent.mk "d" (some "") (some "") (some 0) (some "")).lines :=
  ⟨c10_presence_semantics.1 _ rfl, c10_presence_semantics.2.1 _ rfl,
   c10_presence_semantics.2.2.1 _ rfl, c10_presence_semantics.2.2.2 _ rfl⟩

/-- JSON-compatible values, as synthesized by `_get_default_value_for_field`
and passed to a pydantic constructor as keyword arguments. The only float
the Python code ever produces is the literal `0.0`, represented exactly by a
rational. -/
inductive Value where
  | vstr (s : String)
  | vint (n : Int)
  | vfloat (q : Rat)
  | vbool (b : Bool)
  | vlist (xs : List Value)
  | vdict (xs : List (String × Value))

/-- The annotation shapes `_get_default_value_for_field` distinguishes:
`str`, `int`, `float`, `bool`, `list` (bare or generic origin), `dict` (bare
or generic origin), and anything else, which carries its `__name__` when the
annotation object has one. -/
inductive FieldAnn where
  | str
  | int
  | float
  | bool
  | list
  | dict
  | other (name : Option String)
deriving DecidableEq, Repr

/-- Embeds `_get_default_value_for_field`: the per-kind placeholder table of
the Python helper, the fallback arm building `example_<name>` (or
`example_value` when the annotation has no `__name__`). -/
def getDefaultValueForField : FieldAnn → Value
  | .str => .vstr "example"
  | .int => .vint 0
  | .float => .vfloat 0
  | .bool => .vbool false
  | .list => .vlist []
  | .dict => .vdict []
  | .other name => .vstr ("example_" ++ name.getD "value")

/-- Field metadata exposed by pydantic's `model_fields`: the declared
annotation (field `ann` embeds Python's `annotation` attribute) and the
result of `is_required()`. -/
structure FieldInfo where
  ann : FieldAnn
  required : Bool
deriving DecidableEq, Repr

/-- A pydantic model instance, characterized by the single capability the
Python module uses on instances: `model_dump_json`, returning `json`. -/
structure Inst where
  json : String
deriving DecidableEq, Repr, Inhabited

/-- A pydantic model class as seen by the module: an identity (`mid` stands
for the class object used as a dictionary key), the class `__name__`, the
ordered `model_fields`, the outcome of no-argument construction (`none`
embeds a raised exception), and the outcome of keyword construction from
given field values. -/
structure Model where
  mid : Nat
  name : String
  fields : List (String × FieldInfo)
  construct0 : Option Inst
  constructFields : List (String × Value) → Option Inst

/-- Association lists embed Python dictionaries. -/
abbrev PyDict (α β : Type) := List (α × β)

/-- Embeds Python dictionary lookup. An association list built only by
`ainsert` has at most one entry per key, matching `dict` semantics. -/
def alookup {α β : Type} [DecidableEq α] : PyDict α β → α → Option β
  | [], _ => none
  | (k, v) :: rest, a => if k = a then some v else alookup rest a

/-- Embeds Python dictionary assignment `d[k] = v`: overwrite in place when
the key exists, append otherwise. -/
def ainsert {α β : Type} [DecidableEq α] : PyDict α β → α → β → PyDict α β
  | [], a, b => [(a, b)]
  | (k, v) :: rest, a, b =>
    if k = a then (k, b) :: rest else (k, v) :: ainsert rest a b

/-- The `$ref` object placed in a `oneOf` list. -/
structure RefObj where
  ref : String
deriving DecidableEq, Repr, Inhabited

/-- The `itemSchema` member: a discriminated union over the refs. -/
structure ItemSchema where
  oneOf : List RefObj
deriving DecidableEq, Repr, Inhabited

/-- The legacy top-level `schema` member: same refs plus a description. -/
structure FallbackSchema where
  oneOf : List RefObj
  description : String
deriving DecidableEq, Repr, Inhabited

/-- The `text/event-stream` media-type object. -/
structure MediaTypeObject where
  itemSchema : ItemSchema
  schema : FallbackSchema
deriving DecidableEq, Repr, Inhabited

/-- The `content` object keyed by the single `text/event-stream` media
type. -/
structure ContentObject where
  textEventStream : MediaTypeObject
deriving DecidableEq, Repr, Inhabited

/-- The value returned by `sse_schema_for`: a mapping with the single key
`content`. -/
structure ContentSchema where
  content : ContentObject
deriving DecidableEq, Repr, Inhabited

/-- Embeds `sse_schema_for`: one `$ref` per model, in list order, shared by
`itemSchema.oneOf` and the legacy `schema.oneOf`. -/
def sse_schema_for (event_models : List Model) : ContentSchema :=
  let one_of := event_models.map fun m => RefObj.mk ("#/components/schemas/" ++ m.name)
  { content := { textEventStream := {
      itemSchema := { oneOf := one_of },
      schema := { oneOf := one_of,
                  description := "Server-Sent Events stream" } } } }

/-- Claim C4: for every ordered list of payload types, `sse_schema_for`
yields identical `itemSchema.oneOf` and `schema.oneOf` lists, with one entry
per input type in the caller's order, each entry a `$ref` equal to
`#/components/schemas/<TypeName>`. -/
theorem c4_schema_one_of_lists (ms : List Model) :
    (sse_schema_for ms).content.textEventStream.itemSchema.oneOf
      = (sse_schema_for ms).content.textEventStream.schema.oneOf ∧
    (sse_schema_for ms).content.textEventStream.itemSchema.oneOf
      = ms.map (fun m => RefObj.mk ("#/components/schemas/" ++ m.name)) :=
  ⟨rfl, rfl⟩

/-- The `sse_config` dictionary entries the module reads: `include_ids`
(read with `.get("include_ids", False)`), `retry_interval` and `comment`
(read with `.get`, defaulting to `None`). -/
structure SSEConfig where
  include_ids : Bool := false
  retry_interval : Option Int := none
  comment : Option String := none
deriving DecidableEq, Repr, Inhabited

/-- Splits a character list at every newline, the way Python's
`str.split("\n")` does: `n` separators yield `n + 1` pieces, trailing empty
piece included. -/
def splitNl : List Char → List (List Char)
  | [] => [[]]
  | c :: cs =>
    let rest := splitNl cs
    if c = '\n' then [] :: rest
    else (c :: rest.headD []) :: rest.tail

/-- Embeds Python `s.split("\n")` on strings. -/
def splitNlStr (s : String) : List String :=
  (splitNl s.toList).map fun l => String.mk l

/-- Embeds the factory branch condition `if example_factories and model in
example_factories:` together with the factory invocation: `none` when the
branch is not taken (no dictionary, empty — hence falsy — dictionary, or
model not a key); otherwise `some r` where `r` is the invocation outcome,
itself `none` when the factory raised. -/
def factoryFor (f : Option (PyDict Nat (Option Inst))) (mid : Nat) :
    Option (Option Inst) :=
  match f with
  | none => none
  | some fl => if fl.isEmpty then none else alookup fl mid

/-- Embeds the `required_fields` dictionary comprehension: every required
field of `model_fields`, in declaration order, mapped to its synthesized
default value. -/
def requiredFill (m : Model) : List (String × Value) :=
  (m.fields.filter fun p => p.2.required).map
    fun p => (p.1, getDefaultValueForField p.2.ann)

/-- One iteration of the example-construction loop body, given the resolved
event name: factory branch first, else no-argument construction, else
keyword construction from `requiredFill`, skipping (leaving the dictionary
unchanged) whenever construction fails or there is no required field to
supply. -/
def exampleStep (f : Option (PyDict Nat (Option Inst)))
    (acc : PyDict String Inst) (m : Model) (event_name : String) :
    PyDict String Inst :=
  match factoryFor f m.mid with
  | some (some inst) => ainsert acc event_name inst
  | some none => acc
  | none =>
    match m.construct0 with
    | some inst => ainsert acc event_name inst
    | none =>
      if (requiredFill m).isEmpty then acc
      else
        match m.constructFields (requiredFill m) with
        | some inst => ainsert acc event_name inst
        | none => acc

/-- Embeds the example-construction loop of `generate_sse_response_schema`;
`none` embeds the `KeyError` raised by `event_names[model]` when the
supplied naming dictionary misses a model. -/
def buildExamples (names : PyDict Nat String)
    (f : Option (PyDict Nat (Option Inst))) :
    List Model → PyDict String Inst → Option (PyDict String Inst)
  | [], acc => some acc
  | m :: ms, acc =>
    match alookup names m.mid with
    | none => none
    | some event_name => buildExamples names f ms (exampleStep f acc m event_name)

/-- Embeds the event-type description loop: one line per model, in order,
using the caller's per-event description when present and `<Name> events`
otherwise. -/
def buildDescriptions (names : PyDict Nat String) (ed : PyDict String String) :
    List Model → Option (List String)
  | [] => some []
  | m :: ms =>
    match alookup names m.mid with
    | none => none
    | some event_name =>
      match buildDescriptions names ed ms with
      | none => none
      | some rest =>
        some (("- `" ++ event_name ++ "`: "
          ++ ((alookup ed event_name).getD (m.name ++ " events"))) :: rest)

/-- The `SSEEvent` record built for one emitted transcript event. -/
def mkTranscriptEvent (cfg : SSEConfig) (event_name : String) (inst : Inst)
    (event_id : Nat) : SSEEvent :=
  { data := inst.json
    event := some event_name
    id := if cfg.include_ids then some (toString event_id) else none
    retry := if event_id = 1 then cfg.retry_interval else none
    comment := if event_id = 1 then cfg.comment else none }

/-- Embeds the transcript loop: for each model in caller order whose event
name has an example, build an `SSEEvent`, append its formatted lines split
at newlines, and advance `event_id`; skipped models advance nothing. The
returned pair collects the built records and the accumulated
`example_lines`. -/
def buildTranscript (names : PyDict Nat String) (examples : PyDict String Inst)
    (cfg : SSEConfig) :
    List Model → Nat → Option (List SSEEvent × List String)
  | [], _ => some ([], [])
  | m :: ms, event_id =>
    match alookup names m.mid with
    | none => none
    | some event_name =>
      match alookup examples event_name with
      | some inst =>
        match buildTranscript names examples cfg ms (event_id + 1) with
        | none => none
        | some (evs, ls) =>
          some (mkTranscriptEvent cfg event_name inst event_id :: evs,
            splitNlStr (mkTranscriptEvent cfg event_name inst event_id).format ++ ls)
      | none => buildTranscript names examples cfg ms event_id

/-- Embeds the assembly of `full_description`: header, event-type block,
fixed sentence, two optional sentences (note the second is guarded by
truthiness, so a zero retry interval adds no sentence), then the fenced
example transcript. -/
def mkFullDescription (description : String) (etds : List String)
    (cfg : SSEConfig) (example_lines : List String) : String :=
  let base := description ++ "\n\n" ++ "Event Types:\n"
    ++ String.intercalate "\n" etds ++ "\n\n"
    ++ "Each event data field contains JSON matching one of the response schemas.\n\n"
  let d1 := if cfg.include_ids
    then base ++ "Events include sequential IDs for client-side tracking.\n\n"
    else base
  let d2 := match cfg.retry_interval with
    | some n =>
      if n = 0 then d1
      else d1 ++ "Client retry interval: " ++ toString n ++ "ms\n\n"
    | none => d1
  d2 ++ "Example:\n\n" ++ "```\n" ++ String.intercalate "\n" example_lines ++ "```"

/-- The structured content of the response object returned under key `200`:
the intermediate example dictionary and built event records are carried
along as the observable trace of the assembly. -/
structure SSEResult where
  examples : PyDict String Inst
  event_type_descriptions : List String
  events : List SSEEvent
  example_lines : List String
  full_description : String
  schema : ContentSchema
deriving DecidableEq, Repr, Inhabited

/-- Embeds Python `str.lower()` for the ASCII class names that occur here:
every character lower-cased. -/
def pyLower (s : String) : String :=
  String.mk (s.toList.map Char.toLower)

/-- Embeds the `event_names` resolution step: the caller's dictionary when
one is supplied, otherwise the comprehension mapping every model to its
lower-cased class name. -/
def resolveNames (event_models : List Model) :
    Option (PyDict Nat String) → PyDict Nat String
  | some ns => ns
  | none => event_models.foldl (fun d m => ainsert d m.mid (pyLower m.name)) []

/-- Embeds `generate_sse_response_schema`. `none` embeds an uncaught
`KeyError` from `event_names[model]`; otherwise the structured response
object (always keyed under HTTP 200 in the Python code). -/
def generate_sse_response_schema (event_models : List Model)
    (description : String)
    (event_descriptions : Option (PyDict String String))
    (example_factories : Option (PyDict Nat (Option Inst)))
    (event_names : Option (PyDict Nat String))
    (sse_config : Option SSEConfig) : Option SSEResult :=
  let ed := event_descriptions.getD []
  let names := resolveNames event_models event_names
  let cfg := sse_config.getD {}
  (buildExamples names example_factories event_models []).bind fun examples =>
    (buildDescriptions names ed event_models).bind fun etds =>
      (buildTranscript names examples cfg event_models 1).bind fun p =>
        some { examples := examples
               event_type_descriptions := etds
               events := p.1
               example_lines := p.2
               full_description := mkFullDescription description etds cfg p.2
               schema := sse_schema_for event_models }

/-- Embeds Python `str.title()` for the ASCII strings that occur here: the
first letter of every alphabetic run upper-cased, the rest lower-cased. -/
def pyTitleGo : List Char → Bool → List Char
  | [], _ => []
  | c :: cs, prevAlpha =>
    if c.isAlpha then
      (if prevAlpha then c.toLower else c.toUpper) :: pyTitleGo cs true
    else c :: pyTitleGo cs false

/-- String wrapper for `pyTitleGo`. -/
def pyTitle (s : String) : String :=
  String.mk (pyTitleGo s.toList false)

/-- One examples-map entry: `summary`, `description` and the literal SSE
text `value`. -/
structure ExampleEntry where
  summary : String
  description : String
  value : String
deriving DecidableEq, Repr, Inhabited

/-- The loop of `create_sse_event_examples`: iterate the supplied mapping in
insertion order, formatting one `SSEEvent` per entry; `event_id` advances on
every entry and gates retry and comment onto the first one. -/
def createExamplesGo (cfg : SSEConfig) :
    List (String × Inst) → Nat → PyDict String ExampleEntry →
    PyDict String ExampleEntry
  | [], _, acc => acc
  | (event_name, inst) :: rest, event_id, acc =>
    let e : SSEEvent :=
      { data := inst.json
        event := some event_name
        id := if cfg.include_ids then some (toString event_id) else none
        retry := if event_id = 1 then cfg.retry_interval else none
        comment := if event_id = 1 then cfg.comment else none }
    let entry : ExampleEntry :=
      { summary := pyTitle event_name ++ " Event"
        description := "Server-Sent Event with " ++ event_name ++ " data"
        value := e.format }
    createExamplesGo cfg rest (event_id + 1)
      (ainsert acc (event_name ++ "_event") entry)

/-- Embeds `create_sse_event_examples`. -/
def create_sse_event_examples (models_with_data : List (String × Inst))
    (sse_config : Option SSEConfig) : PyDict String ExampleEntry :=
  createExamplesGo (sse_config.getD {}) models_with_data 1 []

/-- Embeds `create_example_factory`: a zero-argument closure constructing
the class from the captured field values; errors are not caught here. -/
def create_example_factory (model_class : Model)
    (field_values : List (String × Value)) : Unit → Option Inst :=
  fun _ => model_class.constructFields field_values


-- Dictionary lemmas.

theorem alookup_ainsert_self {α β : Type} [DecidableEq α]
    (l : PyDict α β) (a : α) (b : β) : alookup (ainsert l a b) a = some b := by
  induction l with
  | nil => simp [ainsert, alookup]
  | cons p rest ih =>
    by_cases h : p.1 = a
    · simp [ainsert, alookup, h]
    · simp [ainsert, alookup, h, ih]

theorem alookup_ainsert_ne {α β : Type} [DecidableEq α]
    (l : PyDict α β) (a k : α) (b : β) (h : k ≠ a) :
    alookup (ainsert l a b) k = alookup l k := by
  induction l with
  | nil =>
    simp only [ainsert, alookup]
    rw [if_neg (Ne.symm h)]
  | cons p rest ih =>
    by_cases hp : p.1 = a
    · subst hp
      simp only [ainsert, if_pos rfl, alookup]
      rw [if_neg (Ne.symm h), if_neg (Ne.symm h)]
    · simp only [ainsert, if_neg hp, alookup]
      by_cases hk : p.1 = k
      · simp [hk]
      · simp [hk, ih]

theorem alookup_ainsert_isSome {α β : Type} [DecidableEq α]
    (l : PyDict α β) (a k : α) (b : β) (h : (alookup l k).isSome) :
    (alookup (ainsert l a b) k).isSome := by
  by_cases hk : k = a
  · subst hk; simp [alookup_ainsert_self]
  · rwa [alookup_ainsert_ne l a k b hk]

theorem foldl_names_isSome (ms : List Model) :
    ∀ (acc : PyDict Nat String) (k : Nat), (alookup acc k).isSome →
      (alookup (ms.foldl (fun d m => ainsert d m.mid (pyLower m.name)) acc) k).isSome := by
  induction ms with
  | nil => intro acc k h; simpa using h
  | cons m ms ih =>
    intro acc k h
    exact ih _ k (alookup_ainsert_isSome acc m.mid k (pyLower m.name) h)

theorem foldl_names_covers (ms : List Model) :
    ∀ (acc : PyDict Nat String) (m : Model), m ∈ ms →
      (alookup (ms.foldl (fun d m => ainsert d m.mid (pyLower m.name)) acc) m.mid).isSome := by
  induction ms with
  | nil => intro acc m h; exact absurd h (List.not_mem_nil m)
  | cons m0 ms ih =>
    intro acc m h
    rcases List.mem_cons.mp h with h0 | hmem
    · subst h0
      exact foldl_names_isSome ms _ m.mid (by simp [alookup_ainsert_self])
    · exact ih _ m hmem

theorem foldl_names_notmem (ms : List Model) :
    ∀ (acc : PyDict Nat String) (k : Nat), (∀ m ∈ ms, m.mid ≠ k) →
      alookup (ms.foldl (fun d m => ainsert d m.mid (pyLower m.name)) acc) k = alookup acc k := by
  induction ms with
  | nil => intro acc k _; rfl
  | cons m0 ms ih =>
    intro acc k h
    rw [List.foldl_cons, ih _ k (fun m hm => h m (List.mem_cons_of_mem m0 hm)),
      alookup_ainsert_ne _ _ _ _ (Ne.symm (h m0 (List.mem_cons_self m0 ms)))]

theorem foldl_names_eq (ms : List Model) :
    ∀ (acc : PyDict Nat String) (m : Model), (ms.map (·.mid)).Nodup → m ∈ ms →
      alookup (ms.foldl (fun d m => ainsert d m.mid (pyLower m.name)) acc) m.mid
        = some (pyLower m.name) := by
  induction ms with
  | nil => intro acc m _ h; exact absurd h (List.not_mem_nil m)
  | cons m0 ms ih =>
    intro acc m hnd hm
    rw [List.map_cons, List.nodup_cons] at hnd
    rcases List.mem_cons.mp hm with h0 | hmem
    · subst h0
      rw [List.foldl_cons,
        foldl_names_notmem ms _ m.mid
          (fun m' hm' he => hnd.1 (he ▸ List.mem_map_of_mem (·.mid) hm')),
        alookup_ainsert_self]
    · exact ih _ m hnd.2 hmem

-- Transcript-loop lemmas.

theorem buildTranscript_retry_comment_none (names : PyDict Nat String)
    (examples : PyDict String Inst) (cfg : SSEConfig) :
    ∀ (ms : List Model) (n : Nat) (evs : List SSEEvent) (ls : List String),
      2 ≤ n → buildTranscript names examples cfg ms n = some (evs, ls) →
      ∀ e ∈ evs, e.retry = none ∧ e.comment = none := by
  intro ms
  induction ms with
  | nil =>
    intro n evs ls _ h e he
    rw [buildTranscript] at h
    simp only [Option.some.injEq, Prod.mk.injEq] at h
    obtain ⟨h1, _⟩ := h
    subst h1
    exact absurd he (List.not_mem_nil e)
  | cons m ms ih =>
    intro n evs ls hn h e he
    rw [buildTranscript] at h
    split at h
    · exact Option.noConfusion h
    · rename_i event_name h1
      split at h
      · rename_i inst h2
        split at h
        · exact Option.noConfusion h
        · rename_i evs' ls' h3
          simp only [Option.some.injEq, Prod.mk.injEq] at h
          obtain ⟨h4, _⟩ := h
          subst h4
          rcases List.mem_cons.mp he with h0 | hmem
          · subst h0
            have hne : n ≠ 1 := by omega
            simp [mkTranscriptEvent, hne]
          · exact ih (n + 1) evs' ls' (by omega) h3 e hmem
      · rename_i h2
        exact ih n evs ls hn h e he

theorem buildTranscript_first (names : PyDict Nat String)
    (examples : PyDict String Inst) (cfg : SSEConfig) :
    ∀ (ms : List Model) (evs : List SSEEvent) (ls : List String),
      buildTranscript names examples cfg ms 1 = some (evs, ls) →
      (∀ e, evs.head? = some e →
        e.retry = cfg.retry_interval ∧ e.comment = cfg.comment) ∧
      (∀ e ∈ evs.tail, e.retry = none ∧ e.comment = none) := by
  intro ms
  induction ms with
  | nil =>
    intro evs ls h
    rw [buildTranscript] at h
    simp only [Option.some.injEq, Prod.mk.injEq] at h
    obtain ⟨h1, _⟩ := h
    subst h1
    exact ⟨by simp, by simp⟩
  | cons m ms ih =>
    intro evs ls h
    rw [buildTranscript] at h
    split at h
    · exact Option.noConfusion h
    · rename_i event_name h1
      split at h
      · rename_i inst h2
        split at h
        · exact Option.noConfusion h
        · rename_i evs' ls' h3
          simp only [Option.some.injEq, Prod.mk.injEq] at h
          obtain ⟨h4, _⟩ := h
          subst h4
          constructor
          · intro e he
            simp only [List.head?_cons, Option.some.injEq] at he
            rw [← he]
            simp [mkTranscriptEvent]
          · intro e he
            simp only [List.tail_cons] at he
            exact buildTranscript_retry_comment_none names examples cfg ms 2 evs' ls'
              (by omega) h3 e he
      · rename_i h2
        exact ih evs ls h

theorem buildTranscript_ids (names : PyDict Nat String)
    (examples : PyDict String Inst) (cfg : SSEConfig) :
    ∀ (ms : List Model) (n : Nat) (evs : List SSEEvent) (ls : List String),
      buildTranscript names examples cfg ms n = some (evs, ls) →
      ∀ i, i < evs.length → (evs.getD i default).id =
        (if cfg.include_ids then some (toString (n + i)) else none) := by
  intro ms
  induction ms with
  | nil =>
    intro n evs ls h i hi
    rw [buildTranscript] at h
    simp only [Option.some.injEq, Prod.mk.injEq] at h
    obtain ⟨h1, _⟩ := h
    subst h1
    simp at hi
  | cons m ms ih =>
    intro n evs ls h i hi
    rw [buildTranscript] at h
    split at h
    · exact Option.noConfusion h
    · rename_i event_name h1
      split at h
      · rename_i inst h2
        split at h
        · exact Option.noConfusion h
        · rename_i evs' ls' h3
          simp only [Option.some.injEq, Prod.mk.injEq] at h
          obtain ⟨h4, _⟩ := h
          subst h4
          cases i with
          | zero => simp [mkTranscriptEvent]
          | succ i =>
            rw [List.getD_cons_succ]
            have hrec := ih (n + 1) evs' ls' h3 i (by simpa using hi)
            rw [hrec]
            have harith : n + 1 + i = n + (i + 1) := by omega
            rw [harith]
      · rename_i h2
        exact ih n evs ls h i hi

theorem buildTranscript_labels_sublist (names : PyDict Nat String)
    (examples : PyDict String Inst) (cfg : SSEConfig) (lbl : Model → String) :
    ∀ (ms : List Model) (n : Nat) (evs : List SSEEvent) (ls : List String),
      buildTranscript names examples cfg ms n = some (evs, ls) →
      (∀ m ∈ ms, alookup names m.mid = some (lbl m)) →
      List.Sublist (evs.map (·.event)) (ms.map (fun m => some (lbl m))) := by
  intro ms
  induction ms with
  | nil =>
    intro n evs ls h _
    rw [buildTranscript] at h
    simp only [Option.some.injEq, Prod.mk.injEq] at h
    obtain ⟨h1, _⟩ := h
    subst h1
    simp
  | cons m ms ih =>
    intro n evs ls h hlbl
    rw [buildTranscript] at h
    have hlbl' : ∀ m' ∈ ms, alookup names m'.mid = some (lbl m') :=
      fun m' hm' => hlbl m' (List.mem_cons_of_mem m hm')
    split at h
    · exact Option.noConfusion h
    · rename_i event_name h1
      have hename : event_name = lbl m :=
        Option.some.inj (h1.symm.trans (hlbl m (List.mem_cons_self m ms)))
      subst hename
      split at h
      · rename_i inst h2
        split at h
        · exact Option.noConfusion h
        · rename_i evs' ls' h3
          simp only [Option.some.injEq, Prod.mk.injEq] at h
          obtain ⟨h4, _⟩ := h
          subst h4
          simpa [mkTranscriptEvent] using
            List.Sublist.cons₂ (some (lbl m)) (ih (n + 1) evs' ls' h3 hlbl')
      · rename_i h2
        exact List.Sublist.cons _ (ih n evs ls h hlbl')

-- Totality of the three loops when the naming dictionary covers every model.

theorem buildExamples_isSome (names : PyDict Nat String)
    (f : Option (PyDict Nat (Option Inst))) :
    ∀ (ms : List Model) (acc : PyDict String Inst),
      (∀ m ∈ ms, (alookup names m.mid).isSome) →
      (buildExamples names f ms acc).isSome := by
  intro ms
  induction ms with
  | nil => intro acc _; simp [buildExamples]
  | cons m ms ih =>
    intro acc hc
    rw [buildExamples]
    match h1 : alookup names m.mid with
    | none =>
      have := hc m (List.mem_cons_self m ms)
      rw [h1] at this
      exact absurd this (by simp)
    | some event_name =>
      exact ih _ (fun m' hm' => hc m' (List.mem_cons_of_mem m hm'))

theorem buildDescriptions_isSome (names : PyDict Nat String)
    (ed : PyDict String String) :
    ∀ (ms : List Model),
      (∀ m ∈ ms, (alookup names m.mid).isSome) →
      (buildDescriptions names ed ms).isSome := by
  intro ms
  induction ms with
  | nil => intro _; simp [buildDescriptions]
  | cons m ms ih =>
    intro hc
    rw [buildDescriptions]
    match h1 : alookup names m.mid with
    | none =>
      have := hc m (List.mem_cons_self m ms)
      rw [h1] at this
      exact absurd this (by simp)
    | some event_name =>
      match h2 : buildDescriptions names ed ms with
      | none =>
        have := ih (fun m' hm' => hc m' (List.mem_cons_of_mem m hm'))
        rw [h2] at this
        exact absurd this (by simp)
      | some rest => simp

theorem buildTranscript_isSome (names : PyDict Nat String)
    (examples : PyDict String Inst) (cfg : SSEConfig) :
    ∀ (ms : List Model) (n : Nat),
      (∀ m ∈ ms, (alookup names m.mid).isSome) →
      (buildTranscript names examples cfg ms n).isSome := by
  intro ms
  induction ms with
  | nil => intro n _; simp [buildTranscript]
  | cons m ms ih =>
    intro n hc
    rw [buildTranscript]
    match h1 : alookup names m.mid with
    | none =>
      have := hc m (List.mem_cons_self m ms)
      rw [h1] at this
      exact absurd this (by simp)
    | some event_name =>
      have hc' : ∀ m' ∈ ms, (alookup names m'.mid).isSome :=
        fun m' hm' => hc m' (List.mem_cons_of_mem m hm')
      show (match alookup examples event_name with
        | some inst =>
          match buildTranscript names examples cfg ms (n + 1) with
          | none => none
          | some (evs, ls) =>
            some (mkTranscriptEvent cfg event_name inst n :: evs,
              splitNlStr (mkTranscriptEvent cfg event_name inst n).format ++ ls)
        | none => buildTranscript names examples cfg ms n).isSome
      match h2 : alookup examples event_name with
      | some inst =>
        show (match buildTranscript names examples cfg ms (n + 1) with
          | none => (none : Option (List SSEEvent × List String))
          | some (evs, ls) =>
            some (mkTranscriptEvent cfg event_name inst n :: evs,
              splitNlStr (mkTranscriptEvent cfg event_name inst n).format ++ ls)).isSome
        match h3 : buildTranscript names examples cfg ms (n + 1) with
        | none =>
          have := ih (n + 1) hc'
          rw [h3] at this
          exact absurd this (by simp)
        | some p => simp
      | none => exact ih n hc'

-- Decomposition of a successful `generate_sse_response_schema` call.

theorem generate_components (ms : List Model) (d : String)
    (ed : Option (PyDict String String)) (f : Option (PyDict Nat (Option Inst)))
    (en : Option (PyDict Nat String)) (sc : Option SSEConfig) (r : SSEResult)
    (hr : generate_sse_response_schema ms d ed f en sc = some r) :
    ∃ examples etds events lines,
      buildExamples (resolveNames ms en) f ms [] = some examples ∧
      buildDescriptions (resolveNames ms en) (ed.getD []) ms = some etds ∧
      buildTranscript (resolveNames ms en) examples (sc.getD {}) ms 1
        = some (events, lines) ∧
      r = { examples := examples
            event_type_descriptions := etds
            events := events
            example_lines := lines
            full_description := mkFullDescription d etds (sc.getD {}) lines
            schema := sse_schema_for ms } := by
  simp only [generate_sse_response_schema] at hr
  rcases Option.bind_eq_some.mp hr with ⟨examples, hex, hr2⟩
  rcases Option.bind_eq_some.mp hr2 with ⟨etds, hetds, hr3⟩
  rcases Option.bind_eq_some.mp hr3 with ⟨p, htp, hr4⟩
  exact ⟨examples, etds, p.1, p.2, hex, hetds, by rw [Prod.mk.eta]; exact htp,
    (Option.some.inj hr4).symm⟩

/-- Claim C2: in every transcript generated by `generate_sse_response_schema`,
the configured retry value and leading comment sit only on the first
successfully emitted event — later events carry neither — even when earlier
types in the caller's list were skipped because their example could not be
constructed. -/
theorem c2_retry_comment_first_only (ms : List Model) (d : String)
    (ed : Option (PyDict String String)) (f : Option (PyDict Nat (Option Inst)))
    (en : Option (PyDict Nat String)) (sc : Option SSEConfig) (r : SSEResult)
    (hr : generate_sse_response_schema ms d ed f en sc = some r) :
    (∀ e, r.events.head? = some e →
      e.retry = (sc.getD {}).retry_interval ∧ e.comment = (sc.getD {}).comment) ∧
    (∀ e ∈ r.events.tail, e.retry = none ∧ e.comment = none) := by
  obtain ⟨examples, etds, events, lines, hE, hD, hT, hreq⟩ :=
    generate_components ms d ed f en sc r hr
  subst hreq
  simpa using buildTranscript_first (resolveNames ms en) examples (sc.getD {}) ms
    events lines hT

/-- Skipped model used by the C2 witness scenario: no-argument construction
fails and there is no required field to synthesize, so its example is
skipped. -/
def mSkipC2 : Model :=
  { mid := 21, name := "Skip", fields := [], construct0 := none
    constructFields := fun _ => none }

/-- First constructible model of the C2 witness scenario. -/
def mOneC2 : Model :=
  { mid := 22, name := "One", fields := [], construct0 := some ⟨"one"⟩
    constructFields := fun _ => none }

/-- Second constructible model of the C2 witness scenario. -/
def mTwoC2 : Model :=
  { mid := 23, name := "Two", fields := [], construct0 := some ⟨"two"⟩
    constructFields := fun _ => none }

/-- Stream configuration used by the C2 witness scenario. -/
def cfgC2 : SSEConfig :=
  { include_ids := true, retry_interval := some 3000, comment := some "hi" }

/-- Result of the C2 witness scenario: the first listed type is skipped, two
events are emitted. -/
def rC2 : SSEResult :=
  (generate_sse_response_schema [mSkipC2, mOneC2, mTwoC2] "d" none none none
    (some cfgC2)).getD default

set_option maxRecDepth 40000

/-- Witness for C2: with a skipped first type, the first emitted event
carries the configured retry and comment while the second carries neither. -/
theorem c2_retry_comment_first_only_witness :
    ((rC2.events.headD default).retry = some 3000 ∧
      (rC2.events.headD default).comment = some "hi") ∧
    ((rC2.events.tail.headD default).retry = none ∧
      (rC2.events.tail.headD default).comment = none) := by
  have h := c2_retry_comment_first_only [mSkipC2, mOneC2, mTwoC2] "d" none none none
    (some cfgC2) rC2 (by decide)
  have h1 := h.1 (rC2.events.headD default) (by decide)
  have h2 := h.2 (rC2.events.tail.headD default) (by decide)
  exact ⟨⟨h1.1.trans rfl, h1.2.trans rfl⟩, h2⟩

theorem startsWithId_append (s t : String) (c : Char) (cs : List Char)
    (h : s.toList = c :: cs) (hne : (('i' : Char) == c) = false) :
    startsWithId (s ++ t) = false := by
  have h' : (s ++ t).toList = c :: (cs ++ t.toList) := by rw [toList_append, h]; rfl
  rw [startsWithId, h']
  have hi : "id: ".toList = 'i' :: "d: ".toList := rfl
  rw [hi]
  exact not_isPrefixOf_head _ _ _ _ hne

theorem countP_startsWithId_zero (e : SSEEvent) (h : e.id = none) :
    e.lines.countP startsWithId = 0 := by
  rw [List.countP_eq_zero]
  intro l hl
  rcases mem_lines_shape e l hl with ⟨c, _, _, hleq⟩ | ⟨i, hi, _⟩ |
      ⟨v, _, _, hleq⟩ | ⟨n, _, hleq⟩ | hleq | hleq
  · subst hleq
    simp [startsWithId_append ": " c ':' " ".toList rfl (by decide)]
  · rw [h] at hi; exact Option.noConfusion hi
  · subst hleq
    simp [startsWithId_append "event: " v 'e' "vent: ".toList rfl (by decide)]
  · subst hleq
    simp [startsWithId_append "retry: " (toString n) 'r' "etry: ".toList rfl (by decide)]
  · subst hleq
    simp [startsWithId_append "data: " e.data 'd' "ata: ".toList rfl (by decide)]
  · subst hleq; decide

/-- Claim C7: when `include_ids` is false or absent, no emitted example
event carries an id (and its formatted lines contain no id line); when true,
emitted events carry sequential ids starting at 1, counting only events that
were actually emitted. -/
theorem c7_sequential_ids (ms : List Model) (d : String)
    (ed : Option (PyDict String String)) (f : Option (PyDict Nat (Option Inst)))
    (en : Option (PyDict Nat String)) (sc : Option SSEConfig) (r : SSEResult)
    (hr : generate_sse_response_schema ms d ed f en sc = some r) :
    ((sc.getD {}).include_ids = false → ∀ e ∈ r.events,
      e.id = none ∧ e.lines.countP startsWithId = 0) ∧
    ((sc.getD {}).include_ids = true → ∀ i, i < r.events.length →
      (r.events.getD i default).id = some (toString (i + 1))) := by
  obtain ⟨examples, etds, events, lines, hE, hD, hT, hreq⟩ :=
    generate_components ms d ed f en sc r hr
  have hev : r.events = events := by rw [hreq]
  constructor
  · intro hfalse e he
    rw [hev] at he
    obtain ⟨i, hi, hgd⟩ := List.mem_iff_getElem.mp he
    have hid := buildTranscript_ids (resolveNames ms en) examples (sc.getD {})
      ms 1 events lines hT i hi
    rw [hfalse] at hid
    simp only [Bool.false_eq_true, if_false] at hid
    rw [List.getD_eq_getElem _ _ hi, hgd] at hid
    exact ⟨hid, countP_startsWithId_zero e hid⟩
  · intro htrue i hi
    rw [hev] at hi ⊢
    have hid := buildTranscript_ids (resolveNames ms en) examples (sc.getD {})
      ms 1 events lines hT i hi
    rw [htrue] at hid
    simp only [if_true] at hid
    rw [hid, Nat.add_comm]

/-- First constructible model of the C7 witness scenario. -/
def mF7 : Model :=
  { mid := 31, name := "F", fields := [], construct0 := some ⟨"f"⟩
    constructFields := fun _ => none }

/-- Second constructible model of the C7 witness scenario. -/
def mG7 : Model :=
  { mid := 32, name := "G", fields := [], construct0 := some ⟨"g"⟩
    constructFields := fun _ => none }

/-- C7 witness result with ids disabled (default configuration). -/
def rC7f : SSEResult :=
  (generate_sse_response_schema [mF7, mG7] "d" none none none none).getD default

/-- C7 witness result with ids enabled. -/
def rC7t : SSEResult :=
  (generate_sse_response_schema [mF7, mG7] "d" none none none
    (some { include_ids := true })).getD default

/-- Witness for C7: ids absent under the default configuration, sequential
`1`, `2` when `include_ids` is set. -/
theorem c7_sequential_ids_witness :
    ((rC7f.events.headD default).id = none) ∧
    ((rC7t.events.getD 0 default).id = some "1") ∧
    ((rC7t.events.getD 1 default).id = some "2") := by
  have hf := (c7_sequential_ids [mF7, mG7] "d" none none none none rC7f
    (by decide)).1 rfl
  have hft := hf (rC7f.events.headD default) (by decide)
  have ht := (c7_sequential_ids [mF7, mG7] "d" none none none
    (some { include_ids := true }) rC7t (by decide)).2 rfl
  exact ⟨hft.1, (ht 0 (by decide)).trans rfl, (ht 1 (by decide)).trans rfl⟩

-- Single-model computations and totality of the assembler under default naming.

theorem buildExamples_single (names : PyDict Nat String)
    (f : Option (PyDict Nat (Option Inst))) (m : Model) (nm : String)
    (hname : alookup names m.mid = some nm) :
    buildExamples names f [m] [] = some (exampleStep f [] m nm) := by
  rw [buildExamples, hname]
  rfl

theorem buildTranscript_single_skip (names : PyDict Nat String)
    (examples : PyDict String Inst) (cfg : SSEConfig) (m : Model) (nm : String)
    (hname : alookup names m.mid = some nm)
    (hnm : alookup examples nm = none) :
    buildTranscript names examples cfg [m] 1 = some ([], []) := by
  rw [buildTranscript, hname]
  show (match alookup examples nm with
    | some inst =>
      match buildTranscript names examples cfg [] 2 with
      | none => none
      | some (evs, ls) =>
        some (mkTranscriptEvent cfg nm inst 1 :: evs,
          splitNlStr (mkTranscriptEvent cfg nm inst 1).format ++ ls)
    | none => buildTranscript names examples cfg [] 1) = some ([], [])
  rw [hnm]
  rfl

theorem resolveNames_single (m : Model) :
    alookup (resolveNames [m] none) m.mid = some (pyLower m.name) := by
  show alookup (ainsert [] m.mid (pyLower m.name)) m.mid = some (pyLower m.name)
  exact alookup_ainsert_self [] m.mid (pyLower m.name)

theorem generate_isSome_of_covers (ms : List Model) (d : String)
    (ed : Option (PyDict String String)) (f : Option (PyDict Nat (Option Inst)))
    (en : Option (PyDict Nat String)) (sc : Option SSEConfig)
    (hcov : ∀ m ∈ ms, (alookup (resolveNames ms en) m.mid).isSome) :
    (generate_sse_response_schema ms d ed f en sc).isSome := by
  simp only [generate_sse_response_schema]
  obtain ⟨ex, hex⟩ := Option.isSome_iff_exists.mp
    (buildExamples_isSome (resolveNames ms en) f ms [] hcov)
  obtain ⟨etds, hetds⟩ := Option.isSome_iff_exists.mp
    (buildDescriptions_isSome (resolveNames ms en) (ed.getD []) ms hcov)
  obtain ⟨p, htp⟩ := Option.isSome_iff_exists.mp
    (buildTranscript_isSome (resolveNames ms en) ex (sc.getD {}) ms 1 hcov)
  simp [hex, hetds, htp]

theorem generate_isSome (ms : List Model) (d : String)
    (ed : Option (PyDict String String)) (f : Option (PyDict Nat (Option Inst)))
    (sc : Option SSEConfig) :
    (generate_sse_response_schema ms d ed f none sc).isSome :=
  generate_isSome_of_covers ms d ed f none sc
    (fun m hm => foldl_names_covers ms [] m hm)

/-- Claim C6: a registered factory that raises — or the failure of both
no-argument and required-field construction — makes the assembler omit that
type's example from the examples dictionary and the transcript while keeping
its schema entry, and the build as a whole still succeeds (with the caller
relying on default naming the build never fails). -/
theorem c6_skip_on_failure :
    (∀ (m : Model) (fl : PyDict Nat (Option Inst)) (d : String)
        (ed : Option (PyDict String String)) (sc : Option SSEConfig) (r : SSEResult),
      alookup fl m.mid = some none →
      generate_sse_response_schema [m] d ed (some fl) none sc = some r →
      r.examples = [] ∧ r.events = [] ∧
      r.schema.content.textEventStream.itemSchema.oneOf
        = [RefObj.mk ("#/components/schemas/" ++ m.name)]) ∧
    (∀ (m : Model) (d : String) (ed : Option (PyDict String String))
        (sc : Option SSEConfig) (r : SSEResult),
      m.construct0 = none → m.constructFields (requiredFill m) = none →
      generate_sse_response_schema [m] d ed none none sc = some r →
      r.examples = [] ∧ r.events = [] ∧
      r.schema.content.textEventStream.itemSchema.oneOf
        = [RefObj.mk ("#/components/schemas/" ++ m.name)]) ∧
    (∀ (ms : List Model) (d : String) (ed : Option (PyDict String String))
        (f : Option (PyDict Nat (Option Inst))) (sc : Option SSEConfig),
      (generate_sse_response_schema ms d ed f none sc).isSome) := by
  refine ⟨?_, ?_, fun ms d ed f sc => generate_isSome ms d ed f sc⟩
  · intro m fl d ed sc r hfl hr
    obtain ⟨examples, etds, events, lines, hE, hD, hT, hreq⟩ :=
      generate_components [m] d ed (some fl) none sc r hr
    have hflne : fl.isEmpty = false := by
      cases fl with
      | nil => simp [alookup] at hfl
      | cons p rest => rfl
    have hstep : exampleStep (some fl) [] m (pyLower m.name) = [] := by
      simp [exampleStep, factoryFor, hflne, hfl]
    rw [buildExamples_single (resolveNames [m] none) (some fl) m (pyLower m.name)
      (resolveNames_single m), hstep] at hE
    have hexamples : examples = [] := (Option.some.inj hE).symm
    subst hexamples
    rw [buildTranscript_single_skip (resolveNames [m] none) [] (sc.getD {}) m
      (pyLower m.name) (resolveNames_single m) rfl] at hT
    have hevents : events = [] := (congrArg Prod.fst (Option.some.inj hT)).symm
    subst hevents
    rw [hreq]
    exact ⟨rfl, rfl, rfl⟩
  · intro m d ed sc r h0 hcf hr
    obtain ⟨examples, etds, events, lines, hE, hD, hT, hreq⟩ :=
      generate_components [m] d ed none none sc r hr
    have hstep : exampleStep none [] m (pyLower m.name) = [] := by
      by_cases hq : (requiredFill m).isEmpty <;>
        simp [exampleStep, factoryFor, h0, hcf, hq]
    rw [buildExamples_single (resolveNames [m] none) none m (pyLower m.name)
      (resolveNames_single m), hstep] at hE
    have hexamples : examples = [] := (Option.some.inj hE).symm
    subst hexamples
    rw [buildTranscript_single_skip (resolveNames [m] none) [] (sc.getD {}) m
      (pyLower m.name) (resolveNames_single m) rfl] at hT
    have hevents : events = [] := (congrArg Prod.fst (Option.some.inj hT)).symm
    subst hevents
    rw [hreq]
    exact ⟨rfl, rfl, rfl⟩

/-- Factory-failure model of the C6 witness scenario. -/
def mFac6 : Model :=
  { mid := 51, name := "D", fields := [], construct0 := some ⟨"dd"⟩
    constructFields := fun _ => none }

/-- The registered factory dictionary of the C6 witness scenario: the
factory for `mFac6` raises. -/
def flC6 : PyDict Nat (Option Inst) := [(51, none)]

/-- C6 witness result for the raising factory. -/
def rC6a : SSEResult :=
  (generate_sse_response_schema [mFac6] "d" none (some flC6) none none).getD default

/-- Construction-failure model of the C6 witness scenario: no-argument and
required-field construction both fail. -/
def mCon6 : Model :=
  { mid := 52, name := "E", fields := [("x", ⟨.str, true⟩)], construct0 := none
    constructFields := fun _ => none }

/-- C6 witness result for the double construction failure. -/
def rC6b : SSEResult :=
  (generate_sse_response_schema [mCon6] "d" none none none none).getD default

/-- Witness for C6: both failure scenarios keep the schema entry, omit the
example and the transcript event, and the build succeeds. -/
theorem c6_skip_on_failure_witness :
    (alookup flC6 mFac6.mid = some none ∧
      rC6a.examples = [] ∧ rC6a.events = [] ∧
      rC6a.schema.content.textEventStream.itemSchema.oneOf
        = [RefObj.mk "#/components/schemas/D"]) ∧
    (mCon6.construct0 = none ∧ mCon6.constructFields (requiredFill mCon6) = none ∧
      rC6b.examples = [] ∧ rC6b.events = [] ∧
      rC6b.schema.content.textEventStream.itemSchema.oneOf
        = [RefObj.mk "#/components/schemas/E"]) ∧
    (generate_sse_response_schema [mFac6] "d" none (some flC6) none none).isSome := by
  have h1 := c6_skip_on_failure.1 mFac6 flC6 "d" none none rC6a rfl (by decide)
  have h2 := c6_skip_on_failure.2.1 mCon6 "d" none none rC6b rfl rfl (by decide)
  have h3 := c6_skip_on_failure.2.2 [mFac6] "d" none (some flC6) none
  exact ⟨⟨rfl, h1.1, h1.2.1, h1.2.2⟩, ⟨rfl, rfl, h2.1, h2.2.1, h2.2.2⟩, h3⟩

/-- Claim C5: with no registered factory and a failing no-argument
constructor, the assembler retries construction passing exactly the required
fields, each filled by declared kind — text `"example"`, integer `0`, float
`0.0`, boolean `false`, list `[]`, mapping `{}` (empty), any other kind an
`example_<name>` placeholder string — with no recursive construction of
nested structured types. -/
theorem c5_required_field_synthesis (m : Model) (d : String)
    (ed : Option (PyDict String String)) (sc : Option SSEConfig) (r : SSEResult)
    (h0 : m.construct0 = none)
    (hr : generate_sse_response_schema [m] d ed none none sc = some r) :
    r.examples = (if (requiredFill m).isEmpty then []
      else match m.constructFields (requiredFill m) with
        | some inst => [(pyLower m.name, inst)]
        | none => []) ∧
    requiredFill m = (m.fields.filter fun p => p.2.required).map
      (fun p => (p.1, getDefaultValueForField p.2.ann)) ∧
    getDefaultValueForField .str = .vstr "example" ∧
    getDefaultValueForField .int = .vint 0 ∧
    getDefaultValueForField .float = .vfloat 0 ∧
    getDefaultValueForField .bool = .vbool false ∧
    getDefaultValueForField .list = .vlist [] ∧
    getDefaultValueForField .dict = .vdict [] ∧
    (∀ s, getDefaultValueForField (.other (some s)) = .vstr ("example_" ++ s)) ∧
    getDefaultValueForField (.other none) = .vstr "example_value" := by
  obtain ⟨examples, etds, events, lines, hE, hD, hT, hreq⟩ :=
    generate_components [m] d ed none none sc r hr
  have hstep : exampleStep none [] m (pyLower m.name) =
      (if (requiredFill m).isEmpty then []
        else match m.constructFields (requiredFill m) with
          | some inst => [(pyLower m.name, inst)]
          | none => []) := by
    by_cases hq : (requiredFill m).isEmpty
    · simp [exampleStep, factoryFor, h0, hq]
    · cases hcf : m.constructFields (requiredFill m) with
      | none => simp [exampleStep, factoryFor, h0, hq, hcf]
      | some inst => simp [exampleStep, factoryFor, h0, hq, hcf, ainsert]
  rw [buildExamples_single (resolveNames [m] none) none m (pyLower m.name)
    (resolveNames_single m), hstep] at hE
  have hexamples := (Option.some.inj hE).symm
  refine ⟨?_, rfl, rfl, rfl, rfl, rfl, rfl, rfl, fun s => rfl, rfl⟩
  rw [hreq]
  exact hexamples

/-- C5 witness model: no factory, failing no-argument constructor, one
required text field, one required integer field, one optional field. -/
def mC5 : Model :=
  { mid := 41, name := "Msg"
    fields := [("message", ⟨.str, true⟩), ("count", ⟨.int, true⟩),
               ("note", ⟨.bool, false⟩)]
    construct0 := none
    constructFields := fun req =>
      if req.length = 2 then some ⟨"msg-filled"⟩ else none }

/-- C5 witness result. -/
def rC5 : SSEResult :=
  (generate_sse_response_schema [mC5] "d" none none none none).getD default

/-- Witness for C5: the synthesized example of `mC5` is produced from
exactly its two required fields. -/
theorem c5_required_field_synthesis_witness :
    mC5.construct0 = none ∧
    rC5.examples = (if (requiredFill mC5).isEmpty then []
      else match mC5.constructFields (requiredFill mC5) with
        | some inst => [(pyLower mC5.name, inst)]
        | none => []) ∧
    requiredFill mC5 = [("message", Value.vstr "example"), ("count", Value.vint 0)] := by
  have h := c5_required_field_synthesis mC5 "d" none none rC5 rfl (by decide)
  exact ⟨rfl, h.1, rfl⟩

theorem string_eq_of_data_eq (s t : String) (h : s.data = t.data) : s = t := by
  cases s
  cases t
  exact congrArg String.mk h

theorem countP_beq_le_one_of_nodup {α : Type} [BEq α] [LawfulBEq α]
    (l : List α) (hl : l.Nodup) (a : α) : l.countP (· == a) ≤ 1 := by
  induction l with
  | nil => simp
  | cons b l ih =>
    rw [List.nodup_cons] at hl
    rw [List.countP_cons]
    by_cases hb : b = a
    · subst hb
      have h0 : l.countP (· == b) = 0 := by
        rw [List.countP_eq_zero]
        intro x hx
        simp only [beq_iff_eq]
        intro hxb
        exact hl.1 (hxb ▸ hx)
      rw [h0]
      simp
    · have hbf : (b == a) = false := by
        simpa using hb
      rw [hbf]
      simpa using ih hl.2

theorem ref_mk_injective :
    Function.Injective (fun n : String => RefObj.mk ("#/components/schemas/" ++ n)) := by
  intro a b hab
  have h1 : "#/components/schemas/" ++ a = "#/components/schemas/" ++ b :=
    congrArg RefObj.ref hab
  have h2 := congrArg String.data h1
  rw [String.data_append, String.data_append] at h2
  exact string_eq_of_data_eq a b (List.append_cancel_left h2)

/-- Counterexample to claim C3 as stated: listing the same payload type
twice puts its `$ref` twice into the `oneOf` list and emits its example
twice in the transcript. -/
def mDup3 : Model :=
  { mid := 61, name := "A", fields := [], construct0 := some ⟨"aj"⟩
    constructFields := fun _ => none }

/-- A list containing `mDup3` twice yields two identical `oneOf` entries and
two transcript events labelled `a`, refuting the at-most-once claim for
duplicate lists. -/
theorem c3_counterexample_duplicate_type :
    ((sse_schema_for [mDup3, mDup3]).content.textEventStream.itemSchema.oneOf).count
      (RefObj.mk "#/components/schemas/A") = 2 ∧
    ((generate_sse_response_schema [mDup3, mDup3] "d" none none none none).map
      (fun r => r.events.countP (fun e => e.event == some "a"))) = some 2 := by
  exact ⟨by decide, by decide⟩

/-- Claim C3 (amended): for lists of pairwise-distinct payload types with
pairwise-distinct resolved labels under default naming, every type's `$ref`
occurs exactly once in the `oneOf` list (in caller order) and at most one
transcript event carries its label, the transcript following caller order. -/
theorem c3_amended_no_duplicates (ms : List Model) (d : String)
    (ed : Option (PyDict String String)) (f : Option (PyDict Nat (Option Inst)))
    (sc : Option SSEConfig) (r : SSEResult)
    (hr : generate_sse_response_schema ms d ed f none sc = some r)
    (hmid : (ms.map (·.mid)).Nodup)
    (hlbl : (ms.map (fun m => pyLower m.name)).Nodup) :
    (∀ m ∈ ms, ((sse_schema_for ms).content.textEventStream.itemSchema.oneOf).count
      (RefObj.mk ("#/components/schemas/" ++ m.name)) = 1) ∧
    List.Sublist (r.events.map (·.event)) (ms.map (fun m => some (pyLower m.name))) ∧
    (∀ m ∈ ms, r.events.countP (fun e => e.event == some (pyLower m.name)) ≤ 1) := by
  have hnames : (ms.map (·.name)).Nodup := by
    have h1 : ((ms.map (·.name)).map pyLower).Nodup := by
      rw [List.map_map]
      exact hlbl
    exact h1.of_map pyLower
  obtain ⟨examples, etds, events, lines, hE, hD, hT, hreq⟩ :=
    generate_components ms d ed f none sc r hr
  have hev : r.events = events := by rw [hreq]
  have hcovlbl : ∀ m ∈ ms, alookup (resolveNames ms none) m.mid
      = some (pyLower m.name) := by
    intro m hm
    exact foldl_names_eq ms [] m hmid hm
  have hsub : List.Sublist (events.map (·.event))
      (ms.map (fun m => some (pyLower m.name))) :=
    buildTranscript_labels_sublist (resolveNames ms none) examples (sc.getD {})
      (fun m => pyLower m.name) ms 1 events lines hT hcovlbl
  have hLnodup : (ms.map (fun m => some (pyLower m.name))).Nodup := by
    have : ((ms.map (fun m => pyLower m.name)).map some).Nodup :=
      hlbl.map (Option.some_injective String)
    rw [List.map_map] at this
    exact this
  have hevnodup : (events.map (·.event)).Nodup := hLnodup.sublist hsub
  refine ⟨?_, by rw [hev]; exact hsub, ?_⟩
  · intro m hm
    have hone : (sse_schema_for ms).content.textEventStream.itemSchema.oneOf
        = (ms.map (·.name)).map (fun n => RefObj.mk ("#/components/schemas/" ++ n)) := by
      rw [List.map_map]
      rfl
    rw [hone]
    exact List.count_eq_one_of_mem (hnames.map ref_mk_injective)
      (List.mem_map_of_mem _ (List.mem_map_of_mem (·.name) hm))
  · intro m hm
    rw [hev]
    have hcnt : events.countP (fun e => e.event == some (pyLower m.name))
        = (events.map (·.event)).countP (· == some (pyLower m.name)) := by
      rw [List.countP_map]
      rfl
    rw [hcnt]
    exact countP_beq_le_one_of_nodup _ hevnodup _

/-- First model of the C3 witness scenario. -/
def mX3 : Model :=
  { mid := 62, name := "X", fields := [], construct0 := some ⟨"xj"⟩
    constructFields := fun _ => none }

/-- Second model of the C3 witness scenario. -/
def mY3 : Model :=
  { mid := 63, name := "Y", fields := [], construct0 := some ⟨"yj"⟩
    constructFields := fun _ => none }

/-- C3 witness result for the duplicate-free list. -/
def rC3 : SSEResult :=
  (generate_sse_response_schema [mX3, mY3] "d" none none none none).getD default

/-- Witness for the amended C3 on a duplicate-free two-type list. -/
theorem c3_amended_no_duplicates_witness :
    ((sse_schema_for [mX3, mY3]).content.textEventStream.itemSchema.oneOf).count
      (RefObj.mk "#/components/schemas/X") = 1 ∧
    rC3.events.countP (fun e => e.event == some "x") ≤ 1 := by
  have h := c3_amended_no_duplicates [mX3, mY3] "d" none none none rC3
    (by decide) (by decide) (by decide)
  exact ⟨h.1 mX3 (List.mem_cons_self mX3 [mY3]),
    h.2.2 mX3 (List.mem_cons_self mX3 [mY3])⟩

-- Further single-model computations, for the naming claims.

theorem buildDescriptions_single (names : PyDict Nat String)
    (ed : PyDict String String) (m : Model) (nm : String)
    (hname : alookup names m.mid = some nm) :
    buildDescriptions names ed [m] =
      some [("- `" ++ nm ++ "`: " ++ ((alookup ed nm).getD (m.name ++ " events")))] := by
  rw [buildDescriptions, hname]
  rfl

theorem buildTranscript_single_emit (names : PyDict Nat String)
    (examples : PyDict String Inst) (cfg : SSEConfig) (m : Model) (nm : String)
    (inst : Inst) (hname : alookup names m.mid = some nm)
    (hnm : alookup examples nm = some inst) :
    ∃ ls, buildTranscript names examples cfg [m] 1
      = some ([mkTranscriptEvent cfg nm inst 1], ls) := by
  refine ⟨splitNlStr (mkTranscriptEvent cfg nm inst 1).format ++ [], ?_⟩
  rw [buildTranscript, hname]
  show (match alookup examples nm with
    | some inst =>
      match buildTranscript names examples cfg [] 2 with
      | none => none
      | some (evs, ls) =>
        some (mkTranscriptEvent cfg nm inst 1 :: evs,
          splitNlStr (mkTranscriptEvent cfg nm inst 1).format ++ ls)
    | none => buildTranscript names examples cfg [] 1)
    = some ([mkTranscriptEvent cfg nm inst 1],
        splitNlStr (mkTranscriptEvent cfg nm inst 1).format ++ [])
  rw [hnm]
  rfl

/-- Counterexample model for claim C8. -/
def mH8 : Model :=
  { mid := 71, name := "H", fields := [], construct0 := some ⟨"hj"⟩
    constructFields := fun _ => none }

/-- Counterexample to claim C8 as stated: an event-naming dictionary that
covers only some of the listed types (here, an empty one) does not fall back
to the lower-cased type name — the build fails with a lookup error. -/
theorem c8_counterexample_partial_mapping :
    generate_sse_response_schema [mH8] "d" none none (some []) none = none := by
  decide

/-- Claim C8 (amended): with no naming dictionary every type's label is its
lower-cased class name; with a supplied dictionary the type's entry is used
as the label; a supplied dictionary missing a listed type makes the call
fail instead of falling back. -/
theorem c8_amended_label_resolution :
    (∀ (m : Model) (inst : Inst) (d : String) (ed : Option (PyDict String String))
        (sc : Option SSEConfig),
      m.construct0 = some inst →
      ∃ r, generate_sse_response_schema [m] d ed none none sc = some r ∧
        r.events.map (·.event) = [some (pyLower m.name)]) ∧
    (∀ (m : Model) (inst : Inst) (lbl : String) (d : String)
        (ed : Option (PyDict String String)) (sc : Option SSEConfig),
      m.construct0 = some inst →
      ∃ r, generate_sse_response_schema [m] d ed none
          (some [(m.mid, lbl)]) sc = some r ∧
        r.events.map (·.event) = [some lbl]) ∧
    (∀ (m : Model) (d : String) (ed : Option (PyDict String String))
        (f : Option (PyDict Nat (Option Inst))) (sc : Option SSEConfig),
      generate_sse_response_schema [m] d ed f (some []) sc = none) := by
  refine ⟨?_, ?_, ?_⟩
  · intro m inst d ed sc h0
    have hname := resolveNames_single m
    have hstep : exampleStep none [] m (pyLower m.name) = [(pyLower m.name, inst)] := by
      simp [exampleStep, factoryFor, h0, ainsert]
    obtain ⟨r, hgen⟩ := Option.isSome_iff_exists.mp (generate_isSome [m] d ed none sc)
    refine ⟨r, hgen, ?_⟩
    obtain ⟨examples, etds, events, lines, hE', hD', hT', hreq⟩ :=
      generate_components [m] d ed none none sc r hgen
    have hE := buildExamples_single (resolveNames [m] none) none m (pyLower m.name) hname
    rw [hstep] at hE
    rw [hE] at hE'
    have hexq : examples = [(pyLower m.name, inst)] := (Option.some.inj hE').symm
    subst hexq
    obtain ⟨ls, hT⟩ := buildTranscript_single_emit (resolveNames [m] none)
      [(pyLower m.name, inst)] (sc.getD {}) m (pyLower m.name) inst hname
      (by simp [alookup])
    rw [hT] at hT'
    have hevq : events
        = [mkTranscriptEvent (sc.getD {}) (pyLower m.name) inst 1] :=
      (congrArg Prod.fst (Option.some.inj hT')).symm
    rw [hreq]
    show events.map (·.event) = [some (pyLower m.name)]
    rw [hevq]
    rfl
  · intro m inst lbl d ed sc h0
    have hname : alookup (resolveNames [m] (some [(m.mid, lbl)])) m.mid = some lbl := by
      simp [resolveNames, alookup]
    have hstep : exampleStep none [] m lbl = [(lbl, inst)] := by
      simp [exampleStep, factoryFor, h0, ainsert]
    obtain ⟨r, hgen⟩ := Option.isSome_iff_exists.mp
      (generate_isSome_of_covers [m] d ed none (some [(m.mid, lbl)]) sc
        (by intro m' hm'
            rcases List.mem_cons.mp hm' with h0' | h0'
            · subst h0'; simp [hname]
            · exact absurd h0' (List.not_mem_nil m')))
    refine ⟨r, hgen, ?_⟩
    obtain ⟨examples, etds, events, lines, hE', hD', hT', hreq⟩ :=
      generate_components [m] d ed none (some [(m.mid, lbl)]) sc r hgen
    have hE := buildExamples_single (resolveNames [m] (some [(m.mid, lbl)])) none m lbl hname
    rw [hstep] at hE
    rw [hE] at hE'
    have hexq : examples = [(lbl, inst)] := (Option.some.inj hE').symm
    subst hexq
    obtain ⟨ls, hT⟩ := buildTranscript_single_emit
      (resolveNames [m] (some [(m.mid, lbl)])) [(lbl, inst)] (sc.getD {}) m lbl inst
      hname (by simp [alookup])
    rw [hT] at hT'
    have hevq : events = [mkTranscriptEvent (sc.getD {}) lbl inst 1] :=
      (congrArg Prod.fst (Option.some.inj hT')).symm
    rw [hreq]
    show events.map (·.event) = [some lbl]
    rw [hevq]
    rfl
  · intro m d ed f sc
    simp [generate_sse_response_schema, resolveNames, buildExamples, alookup]

/-- C8 witness result under default naming. -/
def rC8a : SSEResult :=
  (generate_sse_response_schema [mH8] "d" none none none none).getD default

/-- C8 witness result under a caller-supplied naming dictionary. -/
def rC8b : SSEResult :=
  (generate_sse_response_schema [mH8] "d" none none
    (some [(mH8.mid, "custom")]) none).getD default

/-- Witness for the amended C8: default lower-cased label, honored override,
and failure on a partial mapping. -/
theorem c8_amended_label_resolution_witness :
    rC8a.events.map (·.event) = [some (pyLower mH8.name)] ∧
    rC8b.events.map (·.event) = [some "custom"] ∧
    generate_sse_response_schema [mH8] "d" none none (some []) none = none := by
  obtain ⟨r1, hg1, hm1⟩ := c8_amended_label_resolution.1 mH8 ⟨"hj"⟩ "d" none none rfl
  obtain ⟨r2, hg2, hm2⟩ :=
    c8_amended_label_resolution.2.1 mH8 ⟨"hj"⟩ "custom" "d" none none rfl
  have h3 := c8_amended_label_resolution.2.2 mH8 "d" none none none
  refine ⟨?_, ?_, h3⟩
  · have heq : rC8a = r1 := by
      show (generate_sse_response_schema [mH8] "d" none none none none).getD default = r1
      rw [hg1]
      rfl
    rw [heq, hm1]
  · have heq : rC8b = r2 := by
      show (generate_sse_response_schema [mH8] "d" none none
        (some [(mH8.mid, "custom")]) none).getD default = r2
      rw [hg2]
      rfl
    rw [heq, hm2]

-- Newline-splitting facts for the round-trip claim.

theorem splitNl_append (xs ys : List Char) (h : '\n' ∉ xs) :
    splitNl (xs ++ '\n' :: ys) = xs :: splitNl ys := by
  induction xs with
  | nil => simp [splitNl]
  | cons c cs ih =>
    have hc : c ≠ '\n' := fun he => h (he ▸ List.mem_cons_self c cs)
    have h' : '\n' ∉ cs := fun hin => h (List.mem_cons_of_mem c hin)
    simp [splitNl, hc, ih h']

/-- Claim C9: for a single-entry mapping from a (nonempty, newline-free)
label to an instance, `create_sse_event_examples` yields exactly the key
`<label>_event`, and splitting its `value` text back into SSE lines recovers
the `event: <label>` line and a data line carrying the instance's JSON
serialization verbatim — a format-then-parse round trip. -/
theorem c9_examples_round_trip (label : String) (inst : Inst)
    (hl : label ≠ "") (hln : '\n' ∉ label.toList)
    (hjn : '\n' ∉ inst.json.toList) :
    ∃ entry, create_sse_event_examples [(label, inst)] none
        = [(label ++ "_event", entry)] ∧
      ("event: " ++ label).toList ∈ splitNl entry.value.toList ∧
      ("data: " ++ inst.json).toList ∈ splitNl entry.value.toList := by
  refine ⟨{ summary := pyTitle label ++ " Event"
            description := "Server-Sent Event with " ++ label ++ " data"
            value := SSEEvent.format
              { data := inst.json, event := some label, id := none
                retry := none, comment := none } }, rfl, ?_⟩
  have hle : label.isEmpty = false := by
    rw [Bool.eq_false_iff]
    intro hcon
    exact hl ((String.isEmpty_iff label).mp hcon)
  have hlines : SSEEvent.lines
      { data := inst.json, event := some label, id := none
        retry := none, comment := none }
      = ["event: " ++ label, "data: " ++ inst.json, ""] := by
    simp [SSEEvent.lines, commentLines, idLines, eventLines, retryLines, hle]
  have hnl : "\n".data = ['\n'] := rfl
  have hvtl : (SSEEvent.format
      { data := inst.json, event := some label, id := none
        retry := none, comment := none }).toList
      = ("event: " ++ label).toList
        ++ '\n' :: (("data: " ++ inst.json).toList ++ '\n' :: ([] : List Char)) := by
    rw [SSEEvent.format, hlines]
    show (("event: " ++ label) ++ "\n" ++ ("data: " ++ inst.json) ++ "\n" ++ "").toList = _
    simp [String.toList, String.data_append, hnl]
  have hev_nonl : '\n' ∉ ("event: " ++ label).toList := by
    rw [toList_append]
    intro hmem
    rcases List.mem_append.mp hmem with hmem | hmem
    · exact absurd hmem (by decide)
    · exact hln hmem
  have hdata_nonl : '\n' ∉ ("data: " ++ inst.json).toList := by
    rw [toList_append]
    intro hmem
    rcases List.mem_append.mp hmem with hmem | hmem
    · exact absurd hmem (by decide)
    · exact hjn hmem
  rw [hvtl, splitNl_append _ _ hev_nonl, splitNl_append _ _ hdata_nonl]
  exact ⟨List.mem_cons_self _ _, List.mem_cons_of_mem _ (List.mem_cons_self _ _)⟩

/-- Witness for C9 at the label `foo` and the serialized instance `null`. -/
theorem c9_examples_round_trip_witness :
    ("foo" : String) ≠ "" ∧
    (create_sse_event_examples [("foo", Inst.mk "null")] none).length = 1 ∧
    ((create_sse_event_examples [("foo", Inst.mk "null")] none).headD
      ("", default)).1 = "foo_event" ∧
    "event: foo".toList ∈ splitNl
      ((create_sse_event_examples [("foo", Inst.mk "null")] none).headD
        ("", default)).2.value.toList ∧
    "data: null".toList ∈ splitNl
      ((create_sse_event_examples [("foo", Inst.mk "null")] none).headD
        ("", default)).2.value.toList := by
  obtain ⟨entry, heq, hm1, hm2⟩ := c9_examples_round_trip "foo" ⟨"null"⟩
    (by decide) (by decide) (by decide)
  rw [heq]
  exact ⟨by decide, rfl, rfl, hm1, hm2⟩
